import Mathlib

/-!
# Shallow embedding of the crypto-fraud-detection dashboard client

This file embeds the client-side logic of the dashboard (severity bucketing,
alert-status overlay over browser local storage, chain inference from a raw
address string, analysis-request URL construction, auth-store hydration, and
CSV export) as executable Lean definitions, and proves the spec's testable
properties about them.

Modelling conventions:
* JavaScript strings are modelled as Lean `String` (equivalently `List Char`
  via `.data`); the character-level helpers used by the source
  (`trim`, `toLowerCase`, `startsWith`, regex tests) are defined explicitly
  on `List Char`.
* Browser `localStorage` is modelled as a partial map from string keys to
  values (`Store α := String → Option α`).  Where the source stores a
  JSON-encoded object we store the decoded object itself, since the code
  always round-trips through `JSON.stringify`/`JSON.parse`.
* JavaScript numbers (risk scores, amounts) are modelled as `ℚ`; the
  numeric comparisons in the source are exact threshold checks.
* A JavaScript object used as a string-keyed record is modelled as an
  association list in insertion order; `{ ...prev, [k]: v }` replaces the
  value in place when the key exists and appends otherwise, matching
  JS property-update semantics.
-/

namespace FraudClient

/-- Browser local storage: a partial map from string keys to stored values.
`α` is the (decoded) value type stored under the keys in question. -/
def Store (α : Type) : Type := String → Option α

/-- `localStorage.getItem`. -/
def getItem {α : Type} (s : Store α) (k : String) : Option α := s k

/-- `localStorage.setItem`. -/
def setItem {α : Type} (s : Store α) (k : String) (v : α) : Store α :=
  fun k' => if k' = k then some v else s k'

/-- `localStorage.removeItem`. -/
def removeItem {α : Type} (s : Store α) (k : String) : Store α :=
  fun k' => if k' = k then none else s k'

/-- The empty local storage. -/
def emptyStore {α : Type} : Store α := fun _ => none

/-! ## AlertsPage (src/pages/AlertsPage.tsx): severity, reason and status overlay -/

namespace Alerts

/-- Alert status (`type Status = "active" | "acknowledged" | "resolved"`). -/
inductive Status where
  | active
  | acknowledged
  | resolved
deriving DecidableEq, Repr

/-- Severity tier (`type Severity = "critical" | "high" | "medium" | "low"`). -/
inductive Severity where
  | critical
  | high
  | medium
  | low
deriving DecidableEq, Repr

/-- The server risk level (`"low" | "medium" | "high"`). -/
inductive RiskLevel where
  | low
  | medium
  | high
deriving DecidableEq, Repr

/-- A transaction item as consumed by the alerts page (`type TxItem`).
Numeric fields are rationals (JS numbers); optional fields are `Option`. -/
structure TxItem where
  txHash : String
  sender : String          -- `from` (keyword in Lean)
  recipient : String       -- `to`
  value : Option ℚ
  valueEth : Option ℚ
  timeStamp : ℚ
  riskScore : ℚ
  riskLevel : RiskLevel
  gasPriceGwei : Option ℚ
  isMixerInvolved : Bool
deriving DecidableEq, Repr

/-- Severity from `riskScore`, line for line from `buildReasonAndTitle`:
`t.riskScore >= 80 ? "critical" : t.riskScore >= 50 ? "high" :
 t.riskScore >= 30 ? "medium" : "low"`. -/
def buildSeverity (t : TxItem) : Severity :=
  if 80 ≤ t.riskScore then .critical
  else if 50 ≤ t.riskScore then .high
  else if 30 ≤ t.riskScore then .medium
  else .low

/-- A JS object `Record<string, Status>`, modelled as an association list in
key insertion order (JS objects keep string keys in insertion order). -/
abbrev StatusMap := List (String × Status)

/-- JS property read `m[k]`: the entry for the key, if present. -/
def lookupObj (m : StatusMap) (k : String) : Option Status :=
  (m.find? (fun p => p.1 == k)).map (fun p => p.2)

/-- JS spread update `{ ...prev, [k]: v }` (line 976): replaces the value in
place when the key is already present, appends a new entry otherwise. -/
def objInsert (m : StatusMap) (k : String) (v : Status) : StatusMap :=
  if m.any (fun p => p.1 == k) then
    m.map (fun p => if p.1 == k then (k, v) else p)
  else m ++ [(k, v)]

/-- Number of entries stored under a given key. -/
def countKey (m : StatusMap) (k : String) : Nat :=
  (m.filter (fun p => p.1 == k)).length

/-- `statusKey` (line 835): the per-address local-storage key
`alert_statuses_${address}`. -/
def statusKey (address : String) : String := "alert_statuses_" ++ address

/-- `loadStatuses` (lines 836-844): read the override map for an address from
local storage.  A missing (`null`) or empty address yields the empty map, as
does a missing key.  (The source stores the map JSON-encoded; the embedding
stores the decoded map, see the file header.) -/
def loadStatuses (store : Store StatusMap) (address : String) : StatusMap :=
  if address = "" then [] else (getItem store (statusKey address)).getD []

/-- `saveStatuses` (lines 845-847): persist the full override map under the
address key. -/
def saveStatuses (store : Store StatusMap) (address : String) (m : StatusMap) :
    Store StatusMap :=
  setItem store (statusKey address) m

/-- The alerts-page state relevant to the status overlay: the monitored
address (possibly `null`), the in-memory override map, and local storage. -/
structure AlertsState where
  address : Option String
  statusMap : StatusMap
  store : Store StatusMap

/-- `setStatus` (lines 973-980): a no-op when no address is set (JS
`if (!address) return;`, which also catches the empty string); otherwise
update the in-memory map and persist it under the address key. -/
def setStatus (st : AlertsState) (id : String) (newStatus : Status) : AlertsState :=
  match st.address with
  | none => st
  | some a =>
      if a = "" then st
      else
        let next := objInsert st.statusMap id newStatus
        { st with statusMap := next, store := saveStatuses st.store a next }

/-- `acknowledge` (line 981). -/
def acknowledge (st : AlertsState) (id : String) : AlertsState :=
  setStatus st id .acknowledged

/-- `resolve` (line 982). -/
def resolve (st : AlertsState) (id : String) : AlertsState :=
  setStatus st id .resolved

/-- `defaultStatus` (line 920): `"active"` for critical/high severity,
`"resolved"` otherwise. -/
def defaultStatus (sev : Severity) : Status :=
  if sev = .critical ∨ sev = .high then .active else .resolved

/-- The status displayed for an item (line 921):
`statusMap[t.txHash] ?? defaultStatus`. -/
def displayedStatus (statusMap : StatusMap) (t : TxItem) : Status :=
  (lookupObj statusMap t.txHash).getD (defaultStatus (buildSeverity t))

/-- The status the alerts view shows for an item given local storage and the
monitored address: the component keeps `statusMap = loadStatuses(address || "")`
(lines 904-905) and overlays it in the `alerts` memo (line 921). -/
def displayedStatusView (store : Store StatusMap) (address : Option String)
    (t : TxItem) : Status :=
  displayedStatus (loadStatuses store (address.getD "")) t

end Alerts

end FraudClient

namespace FraudClient
namespace Alerts

/-- A convenient constructor for test items that differ only in risk score. -/
def mkItem (score : ℚ) : TxItem :=
  { txHash := "0xabc", sender := "0xf00", recipient := "0xba4",
    value := some 1, valueEth := none, timeStamp := 0,
    riskScore := score, riskLevel := .low, gasPriceGwei := none,
    isMixerInvolved := false }

end Alerts
end FraudClient

namespace FraudClient

/-- The configured API base URL (`import.meta.env.VITE_API_BASE ||
"http://localhost:8000"`, modelled at its default value). -/
def API : String := "http://localhost:8000"

/-! ## TransactionsPage (src/pages/TransactionsPage.tsx) -/

namespace Transactions

/-- The supported chains (`type Chain = "eth" | "btc"`). -/
inductive Chain where
  | eth
  | btc
deriving DecidableEq, Repr

/-- The string a `Chain` value interpolates to in a template literal. -/
def chainSlug : Chain → String
  | .eth => "eth"
  | .btc => "btc"

/-- `unitForChain` (lines 66-68). -/
def unitForChain (chain : Chain) : String :=
  if chain = .btc then "BTC" else "ETH"

/-- JS `String.prototype.trim` on the character sequence. -/
def jsTrim (s : List Char) : List Char :=
  ((s.dropWhile Char.isWhitespace).reverse.dropWhile Char.isWhitespace).reverse

/-- JS `String.prototype.toLowerCase` (ASCII case, which is all the chain
heuristic relies on). -/
def jsToLower (s : List Char) : List Char := s.map Char.toLower

/-- JS `String.prototype.trim` at the `String` level. -/
def jsTrimS (s : String) : String := ⟨jsTrim s.data⟩

/-- One character class of the legacy-Bitcoin regex
`[a-km-zA-HJ-NP-Z1-9]` (base58 alphabet). -/
def base58Char (c : Char) : Bool :=
  (('a' ≤ c) && (c ≤ 'k')) || (('m' ≤ c) && (c ≤ 'z')) ||
  (('A' ≤ c) && (c ≤ 'H')) || (('J' ≤ c) && (c ≤ 'N')) ||
  (('P' ≤ c) && (c ≤ 'Z')) || (('1' ≤ c) && (c ≤ '9'))

/-- The regex test `/^[13][a-km-zA-HJ-NP-Z1-9]{25,34}$/.test(a)` (line 62). -/
def legacyBtcMatch (a : List Char) : Bool :=
  match a with
  | [] => false
  | c :: rest =>
      (c == '1' || c == '3') && rest.all base58Char &&
        decide (25 ≤ rest.length) && decide (rest.length ≤ 34)

/-- The bech32 check (line 61): `lower.startsWith("bc1") ||
lower.startsWith("tb1")` where `lower = a.toLowerCase()`. -/
def bech32Test (a : List Char) : Bool :=
  ['b', 'c', '1'].isPrefixOf (jsToLower a) || ['t', 'b', '1'].isPrefixOf (jsToLower a)

/-- The Ethereum-format check (line 59):
`a.startsWith("0x") && a.length === 42`. -/
def ethFormatTest (a : List Char) : Bool :=
  ['0', 'x'].isPrefixOf a && (a.length == 42)

/-- `inferChainFromAddress` (lines 57-64), with the source's check order:
Ethereum format first, then bech32, then the legacy base58 pattern,
defaulting to Ethereum. -/
def inferChainFromAddress (addr : List Char) : Chain :=
  let a := jsTrim addr
  if ethFormatTest a then .eth
  else if bech32Test a then .btc
  else if legacyBtcMatch a then .btc
  else .eth

/-- Modelled from the spec (§4.2 Chain inference), for refinement comparison
only: the same classification stated with the Bitcoin checks first —
"classify as the Bitcoin chain if it matches bech32 (`bc1`/`tb1` prefix) or
legacy/base58 Bitcoin address patterns; classify as the Ethereum chain if it
is a `0x`-prefixed 42-character string; default to Ethereum otherwise." -/
def inferChainSpecOrder (addr : List Char) : Chain :=
  let a := jsTrim addr
  if bech32Test a then .btc
  else if legacyBtcMatch a then .btc
  else if ethFormatTest a then .eth
  else .eth

/-- The request URL built by the transactions page's `useAnalyze`
(line 35): `${API}/api/analyze/${chain}/${address}?page=1&offset=50`. -/
def analyzeUrl (chain : Chain) (address : String) : String :=
  API ++ "/api/analyze/" ++ chainSlug chain ++ "/" ++ address ++ "?page=1&offset=50"

/-- The Analyze-button click handler (lines 213-218) combined with the
persistence effect (lines 143-145): a blank input is ignored; otherwise the
trimmed input becomes the active address and is written to the
`last_address` key.  The inferred chain only updates in-component state —
no storage key is written for it. -/
def publishSelection (store : Store String) (inputAddress : String) : Store String :=
  if jsTrimS inputAddress = "" then store
  else setItem store "last_address" (jsTrimS inputAddress)

/-- A transaction row as it reaches `toCsv`, with the numeric and timestamp
fields already rendered to the strings the source's template interpolation
produces (`r.value`, `r.riskScore.toFixed(2)`, `r.gasPriceGwei ?? 0`, the
ISO timestamp).  CSV structure depends only on the character content of each
cell, so number formatting itself is not modelled. -/
structure CsvRow where
  txHash : String
  sender : String      -- `from` (keyword in Lean)
  recipient : String   -- `to`
  value : String
  riskScore2 : String  -- `riskScore.toFixed(2)`
  riskLevel : String
  gasPriceGwei : String
  isoTimeStamp : String
  isMixerInvolved : Bool
deriving DecidableEq, Repr

/-- The column values of one CSV row (lines 82-92). -/
def csvCols (r : CsvRow) : List String :=
  [r.txHash, r.sender, r.recipient, r.value, r.riskScore2, r.riskLevel,
   r.gasPriceGwei, r.isoTimeStamp, if r.isMixerInvolved then "true" else "false"]

/-- The header cells (line 73); the value column names the chain's unit. -/
def csvHeaders (chain : Chain) : List String :=
  ["txHash", "from", "to", "value(" ++ unitForChain chain ++ ")", "riskScore",
   "riskLevel", "gasPriceGwei", "timeStamp(ISO)", "isMixerInvolved"]

/-- JS `s.replace(/"/g, '""')`: double every inner quote. -/
def doubleQuotes (s : String) : String :=
  ⟨s.data.flatMap (fun c => if c == '"' then ['"', '"'] else [c])⟩

/-- The `escape` closure in `toCsv` (lines 74-79): quote a cell that contains
a comma, a double quote or a newline, doubling inner quotes. -/
def csvEscape (s : String) : String :=
  if s.data.any (fun c => c == '"' || c == ',' || c == '\n') then
    "\"" ++ doubleQuotes s ++ "\""
  else s

/-- JS `Array.prototype.join(sep)`. -/
def joinSep (sep : String) : List String → String
  | [] => ""
  | [a] => a
  | a :: rest => a ++ sep ++ joinSep sep rest

/-- `toCsv` (lines 71-98): a UTF-8 BOM, then the header line and one line per
row, joined with `"\n"`; row cells pass through `escape`, headers do not. -/
def toCsv (rows : List CsvRow) (chain : Chain) : String :=
  "\uFEFF" ++ joinSep "\n"
    (joinSep "," (csvHeaders chain) ::
      rows.map (fun r => joinSep "," ((csvCols r).map csvEscape)))

/-- The number of newline-separated lines of a string (one more than the
number of `'\n'` characters). -/
def lineCount (s : String) : Nat := s.data.count '\n' + 1

end Transactions

/-! ## DashboardPage (src/pages/DashboardPage.tsx) -/

namespace Dashboard

/-- The request URL built by the dashboard page's `useAnalyze` (line 31):
`${API}/api/analyze/${address}?page=1&offset=50` — no chain segment. -/
def analyzeUrl (address : String) : String :=
  API ++ "/api/analyze/" ++ address ++ "?page=1&offset=50"

end Dashboard

namespace Alerts

/-- The request URL built by the alerts page's `useAnalyze` (lines 778-780):
the chain segment is included only when a chain is set, otherwise the
chainless form is used ("defaults to ETH if chain not set"). -/
def analyzeUrl (chain : Option String) (address : String) : String :=
  match chain with
  | some c => API ++ "/api/analyze/" ++ c ++ "/" ++ address ++ "?page=1&offset=50"
  | none => API ++ "/api/analyze/" ++ address ++ "?page=1&offset=50"

/-- The alerts page's selection poll (lines 891-896) reads the address from
the `last_address` key. -/
def polledAddress (store : Store String) : Option String :=
  getItem store "last_address"

/-- The alerts page's selection poll (lines 891-896) reads the chain from the
`last_chain` key. -/
def polledChain (store : Store String) : Option String :=
  getItem store "last_chain"

end Alerts

/-! ## Session store (src/auth/AuthContext.tsx) -/

namespace Auth

/-- The authenticated user's profile (`type User`). -/
structure User where
  id : Int
  email : String
  fullName : Option String   -- `full_name`
deriving DecidableEq, Repr

/-- The session state: persisted storage plus the in-memory token and user. -/
structure AuthState where
  store : Store String
  token : Option String
  user : Option User

/-- The `AuthProvider` hydration effect (lines 27-42): the initial token is
read from the `auth_token` key; when present, the profile is fetched; on
success the user is cached; on any failure the persisted token is removed
and the in-memory token and user are reset.  `fetchMe` abstracts the result
of `getAuth("/auth/me", token)`: `.ok` a profile, `.error` the thrown
message. -/
def hydrate (store : Store String) (fetchMe : String → Except String User) : AuthState :=
  match getItem store "auth_token" with
  | none => { store := store, token := none, user := none }
  | some t =>
      match fetchMe t with
      | .ok me => { store := store, token := some t, user := some me }
      | .error _ =>
          { store := removeItem store "auth_token", token := none, user := none }

end Auth

end FraudClient

open FraudClient FraudClient.Alerts in
/-- C1: for every transaction item the client-derived severity tier is
`critical` exactly when the item's risk score is ≥ 80, `high` exactly when it
is in `[50, 80)`, `medium` exactly when it is in `[30, 50)`, and `low`
exactly when it is below 30. -/
theorem severity_buckets (t : FraudClient.Alerts.TxItem) :
    (buildSeverity t = .critical ↔ 80 ≤ t.riskScore) ∧
    (buildSeverity t = .high ↔ 50 ≤ t.riskScore ∧ t.riskScore < 80) ∧
    (buildSeverity t = .medium ↔ 30 ≤ t.riskScore ∧ t.riskScore < 50) ∧
    (buildSeverity t = .low ↔ t.riskScore < 30) := by
  unfold buildSeverity
  split_ifs with h1 h2 h3 <;>
    refine ⟨⟨fun _ => ?_, fun _ => ?_⟩, ⟨fun _ => ?_, fun _ => ?_⟩,
      ⟨fun _ => ?_, fun _ => ?_⟩, ⟨fun _ => ?_, fun _ => ?_⟩⟩ <;>
    first
      | rfl
      | assumption
      | (constructor <;> linarith)
      | linarith
      | simp_all

open FraudClient FraudClient.Alerts in
/-- C3: the alert's displayed status equals the override stored for the
item's transaction hash under the current monitored address when one exists;
otherwise it is `active` for critical/high severity and `resolved` for
medium/low severity. -/
theorem displayed_status_override (store : FraudClient.Store StatusMap)
    (address : String) (t : TxItem) :
    (∀ s, lookupObj (loadStatuses store address) t.txHash = some s →
        displayedStatusView store (some address) t = s) ∧
    (lookupObj (loadStatuses store address) t.txHash = none →
        displayedStatusView store (some address) t =
          if buildSeverity t = .critical ∨ buildSeverity t = .high then
            Status.active
          else Status.resolved) := by
  constructor
  · intro s hs
    simp [displayedStatusView, displayedStatus, hs]
  · intro hnone
    simp [displayedStatusView, displayedStatus, hnone, defaultStatus]

open FraudClient FraudClient.Alerts in
/-- Witness for C3: with a stored `acknowledged` override for the item's
hash the view shows `acknowledged`; without any override a score-90
(critical) item shows `active`. -/
theorem displayed_status_override_witness :
    displayedStatusView
        (FraudClient.setItem FraudClient.emptyStore (statusKey "0xA")
          [("0xabc", Status.acknowledged)])
        (some "0xA") (mkItem 90) = Status.acknowledged ∧
    displayedStatusView (FraudClient.emptyStore : FraudClient.Store StatusMap)
        (some "0xA") (mkItem 90) = Status.active := by
  constructor
  · exact (displayed_status_override _ "0xA" (mkItem 90)).1 Status.acknowledged
      (by decide)
  · have h := (displayed_status_override FraudClient.emptyStore "0xA"
      (mkItem 90)).2 (by decide)
    rw [h]
    decide

open FraudClient FraudClient.Alerts in
/-- C10: with no monitored address selected, `acknowledge` and `resolve`
(and the underlying `setStatus`) are complete no-ops: the whole state,
including every persisted per-address override map, is unchanged. -/
theorem setStatus_noop_without_address (st : AlertsState) (id : String)
    (v : Status) (h : st.address = none) :
    setStatus st id v = st ∧ acknowledge st id = st ∧ resolve st id = st := by
  unfold acknowledge resolve setStatus
  rw [h]
  exact ⟨rfl, rfl, rfl⟩

open FraudClient FraudClient.Alerts in
/-- Witness for C10 at a concrete empty state. -/
theorem setStatus_noop_without_address_witness :
    setStatus ⟨none, [], FraudClient.emptyStore⟩ "0xh1" Status.resolved
        = ⟨none, [], FraudClient.emptyStore⟩ ∧
    acknowledge ⟨none, [], FraudClient.emptyStore⟩ "0xh1"
        = ⟨none, [], FraudClient.emptyStore⟩ ∧
    resolve ⟨none, [], FraudClient.emptyStore⟩ "0xh1"
        = ⟨none, [], FraudClient.emptyStore⟩ :=
  setStatus_noop_without_address ⟨none, [], FraudClient.emptyStore⟩ "0xh1"
    Status.resolved rfl

open FraudClient FraudClient.Auth in
/-- C7: on startup with a persisted token, if the profile fetch fails for any
reason the session ends unauthenticated: the persisted `auth_token` key is
removed and the in-memory token and user are both absent. -/
theorem hydration_failure_resets (store : FraudClient.Store String)
    (fetchMe : String → Except String User) (t e : String)
    (h1 : FraudClient.getItem store "auth_token" = some t)
    (h2 : fetchMe t = .error e) :
    FraudClient.getItem (hydrate store fetchMe).store "auth_token" = none ∧
    (hydrate store fetchMe).token = none ∧
    (hydrate store fetchMe).user = none := by
  unfold hydrate
  rw [h1]
  dsimp only
  rw [h2]
  refine ⟨?_, rfl, rfl⟩
  simp [FraudClient.getItem, FraudClient.removeItem]

open FraudClient FraudClient.Auth in
/-- Witness for C7: a stored token plus a failing profile fetch ends in the
unauthenticated state. -/
theorem hydration_failure_resets_witness :
    FraudClient.getItem
        (hydrate (FraudClient.setItem FraudClient.emptyStore "auth_token" "tok")
          (fun _ => .error "401")).store "auth_token" = none ∧
    (hydrate (FraudClient.setItem FraudClient.emptyStore "auth_token" "tok")
        (fun _ => .error "401")).token = none ∧
    (hydrate (FraudClient.setItem FraudClient.emptyStore "auth_token" "tok")
        (fun _ => .error "401")).user = none :=
  hydration_failure_resets _ _ "tok" "401" (by decide) rfl

open FraudClient FraudClient.Transactions in
/-- C8 (failing on the code): publishing a selection from the transactions
page writes only the `last_address` key — the `last_chain` key that the
alerts page polls is never written by any publisher.  At the failing input,
analyzing the bech32 Bitcoin address below, the published store carries the
address and the chain tag derived from its format is `btc`, yet the chain
the alerts page polls is still absent. -/
theorem publish_omits_last_chain :
    (∀ (store : FraudClient.Store String) (input : String),
        Alerts.polledChain (publishSelection store input) =
          Alerts.polledChain store) ∧
    inferChainFromAddress "bc1qw508d6qejxtdg4y5r3zarvary0c5xw7kv8f3t4".data
      = Chain.btc ∧
    Alerts.polledAddress
        (publishSelection FraudClient.emptyStore
          "bc1qw508d6qejxtdg4y5r3zarvary0c5xw7kv8f3t4")
      = some "bc1qw508d6qejxtdg4y5r3zarvary0c5xw7kv8f3t4" ∧
    Alerts.polledChain
        (publishSelection FraudClient.emptyStore
          "bc1qw508d6qejxtdg4y5r3zarvary0c5xw7kv8f3t4") = none := by
  refine ⟨?_, by decide, by decide, by decide⟩
  intro store input
  unfold Alerts.polledChain publishSelection FraudClient.getItem
  split
  · rfl
  · rw [FraudClient.setItem, if_neg (by decide)]

open FraudClient.Transactions in
/-- An address passing the Ethereum-format check (`0x` prefix) matches
neither the bech32 nor the legacy base58 Bitcoin pattern: the classification
branches of `inferChainFromAddress` are mutually exclusive. -/
theorem ethFormat_not_btc (a : List Char) (h : ethFormatTest a = true) :
    bech32Test a = false ∧ legacyBtcMatch a = false := by
  cases a with
  | nil => simp [ethFormatTest, List.isPrefixOf] at h
  | cons c t =>
    have hc : c = '0' := by
      simp only [ethFormatTest, List.isPrefixOf, Bool.and_eq_true,
        beq_iff_eq] at h
      exact h.1.1.symm
    subst hc
    have h0 : Char.toLower '0' = '0' := rfl
    have hb : ('b' == '0') = false := rfl
    have ht : ('t' == '0') = false := rfl
    have h1 : ('0' == '1') = false := rfl
    have h3 : ('0' == '3') = false := rfl
    constructor
    · simp [bech32Test, jsToLower, List.isPrefixOf, h0, hb, ht]
    · simp [legacyBtcMatch, h1, h3]

open FraudClient FraudClient.Transactions in
/-- C4: the chain heuristic returns `btc` exactly when the trimmed address
has a case-insensitive `bc1`/`tb1` prefix or matches the legacy base58
pattern `^[13][a-km-zA-HJ-NP-Z1-9]\x7b25,34\x7d$`, and `eth` in every other
case (in particular for `0x`-prefixed 42-character strings); consequently the
source's Ethereum-first check order classifies every address exactly as the
spec's Bitcoin-first order. -/
theorem inferChain_matches_spec (addr : List Char) :
    (inferChainFromAddress addr =
      if bech32Test (jsTrim addr) || legacyBtcMatch (jsTrim addr) then
        Chain.btc
      else Chain.eth) ∧
    inferChainFromAddress addr = inferChainSpecOrder addr := by
  unfold inferChainFromAddress inferChainSpecOrder
  by_cases he : ethFormatTest (jsTrim addr) = true
  · obtain ⟨h1, h2⟩ := ethFormat_not_btc (jsTrim addr) he
    simp [he, h1, h2]
  · simp only [Bool.not_eq_true] at he
    by_cases hb : bech32Test (jsTrim addr) = true
    · simp [he, hb]
    · simp only [Bool.not_eq_true] at hb
      by_cases hl : legacyBtcMatch (jsTrim addr) = true
      · simp [he, hb, hl]
      · simp only [Bool.not_eq_true] at hl
        simp [he, hb, hl]

open FraudClient FraudClient.Transactions in
/-- C2 (amended): the transactions page always requests
`/api/analyze/\x7bchain\x7d/\x7baddress\x7d`; the alerts page does so exactly
when a chain tag is set and otherwise falls back to the chainless form, which
is the same URL the dashboard always requests — `/api/analyze/\x7baddress\x7d`
with the address directly after the `analyze` segment and no chain segment. -/
theorem analyze_url_shapes :
    (∀ (chain : Chain) (address : String),
        (chainSlug chain ++ "/" ++ address).data <:+:
          (Transactions.analyzeUrl chain address).data) ∧
    (∀ c address : String,
        (c ++ "/" ++ address).data <:+: (Alerts.analyzeUrl (some c) address).data) ∧
    (∀ address : String,
        Alerts.analyzeUrl none address = Dashboard.analyzeUrl address) ∧
    (∀ address : String,
        ("/api/analyze/" ++ address).data <:+: (Dashboard.analyzeUrl address).data) := by
  refine ⟨?_, ?_, fun _ => rfl, ?_⟩
  · intro chain address
    refine ⟨(API ++ "/api/analyze/").data, "?page=1&offset=50".data, ?_⟩
    simp [Transactions.analyzeUrl, String.data_append, List.append_assoc]
  · intro c address
    refine ⟨(API ++ "/api/analyze/").data, "?page=1&offset=50".data, ?_⟩
    simp [Alerts.analyzeUrl, String.data_append, List.append_assoc]
  · intro address
    refine ⟨API.data, "?page=1&offset=50".data, ?_⟩
    simp [Dashboard.analyzeUrl, String.data_append, List.append_assoc]

open FraudClient FraudClient.Transactions in
/-- C2 counterexample: for the selected chain `eth` and a sample Ethereum
address, the dashboard page's request path does not contain the chain
segment followed by the address segment. -/
theorem dashboard_url_lacks_chain_segment :
    ¬ ((chainSlug Chain.eth ++ "/" ++
          "0xd8dA6BF26964aF9D7eEd9e03E53415D37aA96045").data <:+:
        (Dashboard.analyzeUrl "0xd8dA6BF26964aF9D7eEd9e03E53415D37aA96045").data) := by
  set_option maxRecDepth 20000 in decide

open FraudClient.Alerts in
/-- Distinct addresses have distinct per-address status keys. -/
theorem statusKey_injective {a b : String} (h : statusKey a = statusKey b) :
    a = b := by
  unfold statusKey at h
  have h2 := congrArg String.data h
  rw [String.data_append, String.data_append] at h2
  exact String.ext (List.append_cancel_left h2)

open FraudClient FraudClient.Alerts in
/-- C5: alert-status overrides are isolated per monitored address — an
`acknowledge` or `resolve` performed while `A` is the monitored address
leaves the stored override map under any other address `B` unchanged, and
the override map loaded for `B` depends only on what is stored under `B`'s
own key. -/
theorem override_isolation (st : AlertsState) (A B id : String)
    (hA : st.address = some A) (hA0 : A ≠ "") (hAB : A ≠ B) :
    FraudClient.getItem (acknowledge st id).store (statusKey B)
      = FraudClient.getItem st.store (statusKey B) ∧
    FraudClient.getItem (resolve st id).store (statusKey B)
      = FraudClient.getItem st.store (statusKey B) ∧
    (∀ s1 s2 : FraudClient.Store StatusMap,
        s1 (statusKey B) = s2 (statusKey B) →
        loadStatuses s1 B = loadStatuses s2 B) := by
  have hkey : ¬ statusKey B = statusKey A :=
    fun h => hAB (statusKey_injective h).symm
  refine ⟨?_, ?_, ?_⟩
  · unfold acknowledge setStatus
    rw [hA]
    dsimp only
    rw [if_neg hA0]
    simp [saveStatuses, FraudClient.setItem, FraudClient.getItem, hkey]
  · unfold resolve setStatus
    rw [hA]
    dsimp only
    rw [if_neg hA0]
    simp [saveStatuses, FraudClient.setItem, FraudClient.getItem, hkey]
  · intro s1 s2 h
    unfold loadStatuses
    by_cases hB : B = ""
    · simp [hB]
    · simp [hB, FraudClient.getItem, h]

open FraudClient FraudClient.Alerts in
/-- Witness for C5 at the concrete addresses `0xA` and `0xB`. -/
theorem override_isolation_witness :
    FraudClient.getItem
        (acknowledge ⟨some "0xA", [], FraudClient.emptyStore⟩ "0xh1").store
        (statusKey "0xB")
      = FraudClient.getItem (FraudClient.emptyStore : FraudClient.Store StatusMap)
          (statusKey "0xB") ∧
    FraudClient.getItem
        (resolve ⟨some "0xA", [], FraudClient.emptyStore⟩ "0xh1").store
        (statusKey "0xB")
      = FraudClient.getItem (FraudClient.emptyStore : FraudClient.Store StatusMap)
          (statusKey "0xB") ∧
    (∀ s1 s2 : FraudClient.Store StatusMap,
        s1 (statusKey "0xB") = s2 (statusKey "0xB") →
        loadStatuses s1 "0xB" = loadStatuses s2 "0xB") :=
  override_isolation ⟨some "0xA", [], FraudClient.emptyStore⟩ "0xA" "0xB" "0xh1"
    rfl (by decide) (by decide)

open FraudClient.Alerts in
/-- After a JS-style object update, the key is present. -/
theorem objInsert_any (m : StatusMap) (k : String) (v : Status) :
    (objInsert m k v).any (fun p => p.1 == k) = true := by
  unfold objInsert
  by_cases h : m.any (fun p => p.1 == k) = true
  · rw [if_pos h]
    rw [List.any_eq_true] at h ⊢
    obtain ⟨q, hq, hqk⟩ := h
    refine ⟨(k, v), ?_, by simp⟩
    have hmem := List.mem_map_of_mem (fun p => if p.1 == k then (k, v) else p) hq
    dsimp only at hmem
    rwa [if_pos hqk] at hmem
  · rw [if_neg h]
    rw [List.any_append]
    simp

open FraudClient.Alerts in
/-- After a JS-style object update, every entry under the updated key holds
the written value. -/
theorem objInsert_entry (m : StatusMap) (k : String) (v : Status)
    (p : String × Status) (hp : p ∈ objInsert m k v) (hpk : (p.1 == k) = true) :
    p = (k, v) := by
  unfold objInsert at hp
  by_cases h : m.any (fun p => p.1 == k) = true
  · rw [if_pos h] at hp
    obtain ⟨q, hq, hfq⟩ := List.mem_map.mp hp
    by_cases hqk : (q.1 == k) = true
    · rw [if_pos hqk] at hfq
      exact hfq.symm
    · rw [if_neg hqk] at hfq
      subst hfq
      exact absurd hpk hqk
  · rw [if_neg h] at hp
    rw [List.mem_append] at hp
    cases hp with
    | inl hin =>
      rw [Bool.not_eq_true, List.any_eq_false] at h
      exact absurd hpk (h p hin)
    | inr hin => simpa using hin

open FraudClient.Alerts in
/-- When the key is already present, the JS-style update only rewrites the
entries in place. -/
theorem objInsert_of_any (m : StatusMap) (k : String) (v : Status)
    (h : m.any (fun p => p.1 == k) = true) :
    objInsert m k v = m.map (fun p => if p.1 == k then (k, v) else p) := by
  unfold objInsert
  rw [if_pos h]

open FraudClient.Alerts in
/-- The JS-style object update is idempotent. -/
theorem objInsert_idem (m : StatusMap) (k : String) (v : Status) :
    objInsert (objInsert m k v) k v = objInsert m k v := by
  rw [objInsert_of_any _ _ _ (objInsert_any m k v)]
  have hfix : ∀ p ∈ objInsert m k v,
      (if p.1 == k then (k, v) else p) = p := by
    intro p hp
    by_cases hpk : (p.1 == k) = true
    · rw [if_pos hpk, objInsert_entry m k v p hp hpk]
    · rw [if_neg hpk]
  calc (objInsert m k v).map (fun p => if p.1 == k then (k, v) else p)
      = (objInsert m k v).map (fun p => p) := List.map_congr_left hfix
    _ = objInsert m k v := List.map_id' _

open FraudClient.Alerts in
/-- Reading the updated key after a JS-style object update yields the
written value. -/
theorem lookupObj_objInsert (m : StatusMap) (k : String) (v : Status) :
    lookupObj (objInsert m k v) k = some v := by
  unfold lookupObj
  rcases hq : (objInsert m k v).find? (fun p => p.1 == k) with _ | q
  · rw [List.find?_eq_none] at hq
    have hany := objInsert_any m k v
    rw [List.any_eq_true] at hany
    obtain ⟨x, hx, hpx⟩ := hany
    exact absurd hpx (by simpa using hq x hx)
  · have h1 := List.find?_some hq
    have h2 : q ∈ objInsert m k v := List.mem_of_find?_eq_some hq
    rw [hq]
    rw [objInsert_entry m k v q h2 h1]
    rfl

open FraudClient FraudClient.Alerts in
/-- C6: `resolve` is idempotent — resolving the same alert id twice yields
exactly the state of resolving once; the entry for the id reads `resolved`;
the full override map is persisted under the address key; and the second
call creates no duplicate entry for the id in the persisted map. -/
theorem resolve_idempotent (st : AlertsState) (a id : String)
    (hA : st.address = some a) (hA0 : a ≠ "") :
    resolve (resolve st id) id = resolve st id ∧
    lookupObj (resolve st id).statusMap id = some Status.resolved ∧
    FraudClient.getItem (resolve st id).store (statusKey a)
      = some (resolve st id).statusMap ∧
    countKey (resolve (resolve st id) id).statusMap id
      = countKey (resolve st id).statusMap id := by
  have hstep : resolve st id =
      ⟨some a, objInsert st.statusMap id Status.resolved,
        FraudClient.setItem st.store (statusKey a)
          (objInsert st.statusMap id Status.resolved)⟩ := by
    unfold resolve setStatus
    rw [hA]
    dsimp only
    rw [if_neg hA0]
    rfl
  have hstep2 : resolve (resolve st id) id =
      ⟨some a, objInsert (objInsert st.statusMap id Status.resolved) id Status.resolved,
        FraudClient.setItem
          (FraudClient.setItem st.store (statusKey a)
            (objInsert st.statusMap id Status.resolved)) (statusKey a)
          (objInsert (objInsert st.statusMap id Status.resolved) id Status.resolved)⟩ := by
    rw [hstep]
    unfold resolve setStatus
    dsimp only
    rw [if_neg hA0]
    rfl
  have hidem := objInsert_idem st.statusMap id Status.resolved
  refine ⟨?_, ?_, ?_, ?_⟩
  · rw [hstep2, hstep, hidem]
    congr 1
    funext k'
    by_cases hk : k' = statusKey a <;> simp [FraudClient.setItem, hk]
  · rw [hstep]
    exact lookupObj_objInsert _ _ _
  · rw [hstep]
    simp [FraudClient.getItem, FraudClient.setItem]
  · rw [hstep2, hstep, hidem]

open FraudClient FraudClient.Alerts in
/-- Witness for C6 at a concrete state and alert id. -/
theorem resolve_idempotent_witness :
    resolve (resolve ⟨some "0xA", [], FraudClient.emptyStore⟩ "0xh1") "0xh1"
        = resolve ⟨some "0xA", [], FraudClient.emptyStore⟩ "0xh1" ∧
    lookupObj (resolve ⟨some "0xA", [], FraudClient.emptyStore⟩ "0xh1").statusMap
        "0xh1" = some Status.resolved ∧
    FraudClient.getItem
        (resolve ⟨some "0xA", [], FraudClient.emptyStore⟩ "0xh1").store
        (statusKey "0xA")
      = some (resolve ⟨some "0xA", [], FraudClient.emptyStore⟩ "0xh1").statusMap ∧
    countKey (resolve (resolve ⟨some "0xA", [], FraudClient.emptyStore⟩ "0xh1")
          "0xh1").statusMap "0xh1"
      = countKey (resolve ⟨some "0xA", [], FraudClient.emptyStore⟩
          "0xh1").statusMap "0xh1" :=
  resolve_idempotent ⟨some "0xA", [], FraudClient.emptyStore⟩ "0xA" "0xh1" rfl
    (by decide)

open FraudClient.Transactions in
/-- Joining a list of newline-free lines with `"\n"` yields one `'\n'` per
separator: length minus one. -/
theorem joinSep_newline_count (L : List String)
    (h : ∀ l ∈ L, l.data.count '\n' = 0) :
    (joinSep "\n" L).data.count '\n' = L.length - 1 := by
  induction L with
  | nil => rfl
  | cons a L ih =>
    cases L with
    | nil => simpa using h a (by simp)
    | cons b t =>
      have ha := h a (by simp)
      have hrest := ih (fun l hl => h l (by simp [hl]))
      simp only [joinSep]
      rw [String.data_append, String.data_append, List.count_append,
        List.count_append]
      rw [ha, hrest]
      have hsep : List.count '\n' ("\n" : String).data = 1 := rfl
      rw [hsep]
      simp only [List.length_cons]
      omega

open FraudClient.Transactions in
/-- `escape` introduces no newline into a newline-free cell. -/
theorem csvEscape_no_newline (s : String) (h : '\n' ∉ s.data) :
    '\n' ∉ (csvEscape s).data := by
  unfold csvEscape
  split
  · intro hmem
    rw [String.data_append, String.data_append] at hmem
    have hq : ("\"" : String).data = ['"'] := rfl
    rcases List.mem_append.mp hmem with h1 | h2
    · rcases List.mem_append.mp h1 with h1a | h1b
      · rw [hq] at h1a
        exact absurd (List.mem_singleton.mp h1a) (by decide)
      · unfold doubleQuotes at h1b
        obtain ⟨c, hc, hcmem⟩ := List.mem_flatMap.mp h1b
        by_cases hcq : (c == '"') = true
        · rw [if_pos hcq] at hcmem
          rcases List.mem_cons.mp hcmem with h' | h' <;> simp_all
        · rw [if_neg hcq] at hcmem
          rw [List.mem_singleton.mp hcmem] at h
          exact h hc
    · rw [hq] at h2
      exact absurd (List.mem_singleton.mp h2) (by decide)
  · exact h

open FraudClient.Transactions in
/-- Joining newline-free cells with `","` stays newline-free. -/
theorem joinSep_comma_no_newline (cells : List String)
    (h : ∀ x ∈ cells, '\n' ∉ x.data) :
    '\n' ∉ (joinSep "," cells).data := by
  induction cells with
  | nil => simp [joinSep]
  | cons a L ih =>
    cases L with
    | nil => simpa using h a (by simp)
    | cons b t =>
      simp only [joinSep]
      rw [String.data_append, String.data_append]
      intro hmem
      have hc : ("," : String).data = [','] := rfl
      rcases List.mem_append.mp hmem with h1 | h2
      · rcases List.mem_append.mp h1 with h1a | h1b
        · exact h a (by simp) h1a
        · rw [hc] at h1b
          exact absurd (List.mem_singleton.mp h1b) (by decide)
      · exact ih (fun x hx => h x (by simp [hx])) h2

open FraudClient FraudClient.Transactions in
/-- C9: the CSV export begins with the UTF-8 byte-order mark; for rows whose
cell values contain no newline it consists of exactly `N + 1`
newline-separated lines (the header plus one line per row); and any cell
containing a comma or a double quote is emitted quoted with its inner quotes
doubled. -/
theorem toCsv_spec :
    (∀ (rows : List CsvRow) (chain : Chain),
        (toCsv rows chain).data.head? = some '\uFEFF') ∧
    (∀ (rows : List CsvRow) (chain : Chain),
        (∀ r ∈ rows, ∀ f ∈ csvCols r, '\n' ∉ f.data) →
        lineCount (toCsv rows chain) = rows.length + 1) ∧
    (∀ s : String, ('"' ∈ s.data ∨ ',' ∈ s.data) →
        csvEscape s = "\"" ++ doubleQuotes s ++ "\"") := by
  refine ⟨?_, ?_, ?_⟩
  · intro rows chain
    unfold toCsv
    rw [String.data_append]
    rfl
  · intro rows chain h
    unfold toCsv lineCount
    rw [String.data_append, List.count_append]
    have hbom : List.count '\n' ("\uFEFF" : String).data = 0 := rfl
    rw [hbom]
    have hlines : ∀ l ∈ (joinSep "," (csvHeaders chain) ::
        rows.map (fun r => joinSep "," ((csvCols r).map csvEscape))),
        l.data.count '\n' = 0 := by
      intro l hl
      rcases List.mem_cons.mp hl with rfl | hl2
      · cases chain <;> decide
      · obtain ⟨r, hr, rfl⟩ := List.mem_map.mp hl2
        rw [List.count_eq_zero]
        apply joinSep_comma_no_newline
        intro x hx
        obtain ⟨f, hf, rfl⟩ := List.mem_map.mp hx
        exact csvEscape_no_newline f (h r hr f hf)
    rw [joinSep_newline_count _ hlines]
    simp
  · intro s h
    have hany : (s.data.any (fun c => c == '"' || c == ',' || c == '\n')) = true := by
      rw [List.any_eq_true]
      rcases h with h | h
      · exact ⟨'"', h, by decide⟩
      · exact ⟨',', h, by decide⟩
    unfold csvEscape
    rw [if_pos hany]

open FraudClient FraudClient.Transactions in
/-- Witness for C9: the empty export starts with the byte-order mark; a
one-row export has two lines; a cell with a comma gets quoted. -/
theorem toCsv_spec_witness :
    (toCsv [] Chain.eth).data.head? = some '\uFEFF' ∧
    lineCount (toCsv [⟨"0xh", "0xf", "0xt", "1.5", "85.00", "high", "20",
        "2024-01-01T00:00:00.000Z", false⟩] Chain.eth) = 2 ∧
    csvEscape "a,b" = "\"" ++ doubleQuotes "a,b" ++ "\"" :=
  ⟨toCsv_spec.1 [] Chain.eth,
   toCsv_spec.2.1 [⟨"0xh", "0xf", "0xt", "1.5", "85.00", "high", "20",
      "2024-01-01T00:00:00.000Z", false⟩] Chain.eth (by decide),
   toCsv_spec.2.2 "a,b" (Or.inr (by decide))⟩
